import Mathlib

/-!
Verification of the redis-oxide core: a shallow embedding of the command
translator (`src/resp/ops.rs`) and the hash storage engine
(`src/hashes.rs`, with the shared types of `src/types.rs`), together with
theorems settling the specification claims about them.

Machine integers are modelled as `Nat`/`Int` with explicit reductions
modulo `2^64` (resp. `2^63` bounds) where Rust casts or parse bounds
matter.  Rust panics (`unwrap` on an `Err`) are modelled as `none` of an
`Option` result.  The `HashMap` containers are modelled as association
lists with unique keys; iteration order of the model is insertion order
(the claims proved here do not depend on the container's iteration
order).
-/

set_option autoImplicit false

namespace Hashes

/-- `types.rs`: `pub type Value = Vec<u8>;` — an opaque byte sequence. -/
abbrev Value := List Nat

/-- `types.rs`: `pub type Key = Vec<u8>;` -/
abbrev Key := List Nat

/-- `types.rs`: `pub type Count = i64;` -/
abbrev Count := Int

/-- Modelled from the spec: the Result Model (`ReturnValue`, imported by
`hashes.rs` from `crate::types` but whose definition is outside the
repository slice).  Constructors are exactly those used by
`hash_interact` plus the shapes listed in the spec's Result Model:
no-payload success, nil, a single value, a flat list of values, a nested
array of sub-results, an integer, and an error with a fixed message
payload. -/
inductive ReturnValue where
  | Ok : ReturnValue
  | Nil : ReturnValue
  | StringRes (v : Value) : ReturnValue
  | IntRes (n : Int) : ReturnValue
  | MultiStringRes (vs : List Value) : ReturnValue
  | Array (rs : List ReturnValue) : ReturnValue
  | Error (msg : Value) : ReturnValue

/-- `hashes.rs` `op_variants! { HashOps, ... }`: one constructor per hash
command, carrying exactly the source's argument types. -/
inductive HashOps where
  | HGet (key field : Key) : HashOps
  | HSet (key field : Key) (value : Value) : HashOps
  | HExists (key field : Key) : HashOps
  | HGetAll (key : Key) : HashOps
  | HMGet (key : Key) (fields : List Key) : HashOps
  | HKeys (key : Key) : HashOps
  | HMSet (key : Key) (kvs : List (Key × Value)) : HashOps
  | HIncrBy (key field : Key) (count : Count) : HashOps
  | HLen (key : Key) : HashOps
  | HDel (key : Key) (fields : List Key) : HashOps
  | HVals (key : Key) : HashOps
  | HStrLen (key field : Key) : HashOps
  | HSetNX (key field : Key) (value : Value) : HashOps

/-- `HashMap` lookup (`get`) on the association-list model: the value of
the unique entry with the given key, if any. -/
def alookup {α : Type} : List (Key × α) → Key → Option α
  | [], _ => none
  | (k', v) :: rest, k => if k' = k then some v else alookup rest k

/-- `HashMap` insert-or-overwrite on the association-list model: replaces
the value of an existing entry in place, else appends a new entry. -/
def ainsert {α : Type} : List (Key × α) → Key → α → List (Key × α)
  | [], k, v => [(k, v)]
  | (k', v') :: rest, k, v =>
      if k' = k then (k, v) :: rest else (k', v') :: ainsert rest k v

/-- `HashMap` removal on the association-list model: drops the unique
entry with the given key, if present. -/
def aremove {α : Type} : List (Key × α) → Key → List (Key × α)
  | [], _ => []
  | (k', v') :: rest, k => if k' = k then rest else (k', v') :: aremove rest k

/-- One hash: field name to value (`HashMap<Key, Value>`). -/
abbrev Hash := List (Key × Value)

/-- The hash container: top-level key to hash
(`HashMap<Key, HashMap<Key, Value>>` behind the `hashes` lock). -/
abbrev HState := List (Key × Hash)

/-- Is `b` a UTF-8 continuation byte (`0x80..=0xBF`)? -/
def contB (b : Nat) : Bool := 0x80 ≤ b && b ≤ 0xBF

/-- `std::str::from_utf8` validity: standard UTF-8 well-formedness of a
byte sequence (ASCII, 2-byte `C2..DF`, 3-byte with the `E0`/`ED`
restrictions excluding overlong forms and surrogates, 4-byte with the
`F0`/`F4` restrictions bounding the range at `U+10FFFF`). -/
def isValidUtf8 : List Nat → Bool
  | [] => true
  | b :: rest =>
    if b ≤ 0x7F then isValidUtf8 rest
    else if 0xC2 ≤ b && b ≤ 0xDF then
      match rest with
      | c1 :: rest2 => contB c1 && isValidUtf8 rest2
      | [] => false
    else if b = 0xE0 then
      match rest with
      | c1 :: c2 :: rest3 =>
          (0xA0 ≤ c1 && c1 ≤ 0xBF) && contB c2 && isValidUtf8 rest3
      | _ => false
    else if (0xE1 ≤ b && b ≤ 0xEC) || b = 0xEE || b = 0xEF then
      match rest with
      | c1 :: c2 :: rest3 => contB c1 && contB c2 && isValidUtf8 rest3
      | _ => false
    else if b = 0xED then
      match rest with
      | c1 :: c2 :: rest3 =>
          (0x80 ≤ c1 && c1 ≤ 0x9F) && contB c2 && isValidUtf8 rest3
      | _ => false
    else if b = 0xF0 then
      match rest with
      | c1 :: c2 :: c3 :: rest4 =>
          (0x90 ≤ c1 && c1 ≤ 0xBF) && contB c2 && contB c3 && isValidUtf8 rest4
      | _ => false
    else if 0xF1 ≤ b && b ≤ 0xF3 then
      match rest with
      | c1 :: c2 :: c3 :: rest4 =>
          contB c1 && contB c2 && contB c3 && isValidUtf8 rest4
      | _ => false
    else if b = 0xF4 then
      match rest with
      | c1 :: c2 :: c3 :: rest4 =>
          (0x80 ≤ c1 && c1 ≤ 0x8F) && contB c2 && contB c3 && isValidUtf8 rest4
      | _ => false
    else false

/-- Is `b` the byte of an ASCII decimal digit? -/
def isDigitByte (b : Nat) : Bool := 48 ≤ b && b ≤ 57

/-- The value of a nonempty all-digit byte sequence, read base 10;
`none` if empty or any byte is not an ASCII digit. -/
def digitsToNat? (bs : List Nat) : Option Nat :=
  if bs.isEmpty then none
  else if bs.all isDigitByte then
    some (bs.foldl (fun a b => a * 10 + (b - 48)) 0)
  else none

/-- Rust `str::parse::<i64>` applied to a (valid-UTF-8) byte sequence:
an optional ASCII sign (`+` = 43, `-` = 45) followed by at least one
ASCII digit, with the value required to fit in `i64`
(`-2^63 ..= 2^63 - 1`); anything else is a parse error.  A parse only
ever succeeds on pure-ASCII content, so working on the raw bytes of a
valid-UTF-8 string is faithful. -/
def rust_parse_i64_bytes : List Nat → Option Int
  | 43 :: rest =>
      (digitsToNat? rest).bind fun n =>
        if (n : Int) ≤ 2 ^ 63 - 1 then some (n : Int) else none
  | 45 :: rest =>
      (digitsToNat? rest).bind fun n =>
        if (n : Int) ≤ 2 ^ 63 then some (-(n : Int)) else none
  | bs =>
      (digitsToNat? bs).bind fun n =>
        if (n : Int) ≤ 2 ^ 63 - 1 then some (n : Int) else none

/-- Wrapping `i64` addition result: reduce an integer into
`-2^63 ..= 2^63 - 1` modulo `2^64` (Rust release-mode `+=` overflow
behavior; the spec leaves overflow implementation-defined). -/
def wrap_i64 (x : Int) : Int := (x + 2 ^ 63) % 2 ^ 64 - 2 ^ 63

/-- Rust `i64::to_string` then `Value::from`: the decimal byte text of an
integer, with a leading `-` (byte 45) for negatives. -/
def i64_to_bytes (i : Int) : List Nat :=
  if i < 0 then 45 :: (Nat.toDigits 10 (-i).toNat).map Char.toNat
  else (Nat.toDigits 10 i.toNat).map Char.toNat

/-- The fixed error payload `b"Bad Type!"`. -/
def badTypeMsg : Value := [66, 97, 100, 32, 84, 121, 112, 101, 33]

/-- `HDel` body: `fields.iter().filter_map(|f| hash.remove(f)).count()` —
sequentially remove each present field, counting the removals. -/
def hdel_fold (h : Hash) (fields : List Key) : Hash × Nat :=
  fields.foldl
    (fun acc f =>
      match alookup acc.1 f with
      | some _ => (aremove acc.1 f, acc.2 + 1)
      | none => acc)
    (h, 0)

/-- `hashes.rs` `hash_interact`: executes one hash command against the
hash container, returning the result and the container afterwards.
`none` models a Rust panic (the `.unwrap()` on the `from_utf8` result in
the `HIncrBy` arm is the only panicking path).  The source's
`entry(key).or_default()` materialization of an empty hash is rendered
by re-inserting the (possibly defaulted) hash for the key. -/
def hash_interact (op : HashOps) (st : HState) : Option (ReturnValue × HState) :=
  match op with
  | .HGet k f =>
      some ((match (alookup st k).bind (fun h => alookup h f) with
             | some v => .StringRes v
             | none => .Nil), st)
  | .HSet k f v =>
      some (.Ok, ainsert st k (ainsert ((alookup st k).getD []) f v))
  | .HExists k f =>
      some ((match alookup st k with
             | some h => .IntRes (if (alookup h f).isSome then 1 else 0)
             | none => .IntRes 0), st)
  | .HGetAll k =>
      some ((match alookup st k with
             | none => .MultiStringRes []
             | some h => .MultiStringRes ((h.map (fun p => [p.1, p.2])).flatten)), st)
  | .HMGet k fields =>
      some (.Array (match alookup st k with
             | none => List.replicate fields.length .Nil
             | some h =>
                 fields.map (fun f =>
                   match alookup h f with
                   | some v => .StringRes v
                   | none => .Nil)), st)
  | .HKeys k =>
      some ((match alookup st k with
             | some h => .Array (h.map (fun p => .StringRes p.1))
             | none => .Array []), st)
  | .HMSet k kvs =>
      some (.Ok, ainsert st k
        (kvs.foldl (fun h p => ainsert h p.1 p.2) ((alookup st k).getD [])))
  | .HIncrBy k f n =>
      let h := (alookup st k).getD []
      match alookup h f with
      | some v =>
          if isValidUtf8 v then
            match rust_parse_i64_bytes v with
            | none => some (.Error badTypeMsg, ainsert st k h)
            | some cur =>
                some (.Ok, ainsert st k
                  (ainsert h f (i64_to_bytes (wrap_i64 (cur + n)))))
          else none
      | none =>
          some (.Ok, ainsert st k
            (ainsert h f (i64_to_bytes (wrap_i64 (0 + n)))))
  | .HLen k =>
      some (.IntRes (match alookup st k with
             | some h => (h.length : Int)
             | none => 0), st)
  | .HDel k fields =>
      match alookup st k with
      | some h =>
          let r := hdel_fold h fields
          some (.IntRes (r.2 : Int), ainsert st k r.1)
      | none => some (.IntRes 0, st)
  | .HVals k =>
      some ((match alookup st k with
             | some h => .Array (h.map (fun p => .StringRes p.2))
             | none => .Array []), st)
  | .HStrLen k f =>
      some (.IntRes (match (alookup st k).bind (fun h => alookup h f) with
             | some v => (v.length : Int)
             | none => 0), st)
  | .HSetNX k f v =>
      let h := (alookup st k).getD []
      match alookup h f with
      | none => some (.IntRes 1, ainsert st k (ainsert h f v))
      | some _ => some (.IntRes 0, ainsert st k h)

theorem alookup_ainsert {α : Type} (l : List (Key × α)) (k : Key) (v : α) :
    alookup (ainsert l k v) k = some v := by
  induction l with
  | nil => simp [ainsert, alookup]
  | cons p rest ih =>
      obtain ⟨k', v'⟩ := p
      by_cases h : k' = k
      · simp [ainsert, alookup, h]
      · simp [ainsert, alookup, h, ih]

end Hashes

namespace Resp

/-- `resp/ops.rs`: `pub type Key = String;` -/
abbrev RKey := String

/-- `resp/ops.rs`: `pub type Count = usize;` (64-bit unsigned). -/
abbrev RCount := Nat

/-- `resp/ops.rs`: `pub type ICount = i64;` -/
abbrev ICount := Int

/-- Modelled from the spec: the Wire Value Model (`RedisValue` of the
external `resp/resp.rs` module, not in the repository slice) — the
closed set of variants of §6: simple string, error string, bulk string,
64-bit integer, array of wire values, null array, null bulk string.
String payloads are text (the translator calls `to_string`/`parse` on
them directly). -/
inductive RedisValue where
  | SimpleString (s : String) : RedisValue
  | Error (s : String) : RedisValue
  | BulkString (s : String) : RedisValue
  | Int (i : Int) : RedisValue
  | Array (vs : List RedisValue) : RedisValue
  | NullArray : RedisValue
  | NullBulkString : RedisValue

/-- `resp/ops.rs` `enum Ops`: the Command Catalog, one constructor per
validated typed command. -/
inductive Ops where
  | Set (k : RKey) (v : String) : Ops
  | Get (k : RKey) : Ops
  | Del (ks : List RKey) : Ops
  | Rename (k newk : RKey) : Ops
  | SAdd (k : RKey) (vs : List String) : Ops
  | SRem (k : RKey) (vs : List String) : Ops
  | SMembers (k : RKey) : Ops
  | SIsMember (k : RKey) (m : String) : Ops
  | SCard (k : RKey) : Ops
  | SDiff (ks : List String) : Ops
  | SUnion (ks : List String) : Ops
  | SInter (ks : List String) : Ops
  | SDiffStore (k : RKey) (ks : List String) : Ops
  | SUnionStore (k : RKey) (ks : List String) : Ops
  | SInterStore (k : RKey) (ks : List String) : Ops
  | SPop (k : RKey) (c : Option RCount) : Ops
  | SMove (src dest : RKey) (m : String) : Ops
  | SRandMembers (k : RKey) (c : Option ICount) : Ops
  | LPush (k : RKey) (vs : List String) : Ops
  | LPushX (k : RKey) (v : String) : Ops
  | LLen (k : RKey) : Ops
  | LPop (k : RKey) : Ops
  | Keys : Ops
  | Exists (ks : List RKey) : Ops
  | Pong : Ops
deriving DecidableEq

/-- `resp/ops.rs` `enum OpsError`: the translation-time error taxonomy.
(The last constructor is the source's reserved syntax-error variant.) -/
inductive OpsError where
  | InvalidStart : OpsError
  | Noop : OpsError
  | UnknownOp : OpsError
  | NotEnoughArgs (n : Nat) : OpsError
  | WrongNumberOfArgs (n : Nat) : OpsError
  | InvalidType : OpsError
  | SyntaxErr : OpsError
deriving DecidableEq

/-- `impl TryFrom<&RedisValue> for String`: simple and bulk strings
coerce to their text; every other shape is `InvalidType`. -/
def string_try_from : RedisValue → Except OpsError String
  | .SimpleString s => .ok s
  | .BulkString s => .ok s
  | _ => .error .InvalidType

/-- The value of a nonempty all-ASCII-digit character sequence, read
base 10; `none` otherwise. -/
def digitsCharsToNat? (cs : List Char) : Option Nat :=
  if cs.isEmpty then none
  else if cs.all Char.isDigit then
    some (cs.foldl (fun a c => a * 10 + (c.toNat - 48)) 0)
  else none

/-- Rust `str::parse::<usize>`: an optional leading `+` followed by at
least one ASCII digit, value below `2^64` (64-bit `usize`); no minus
sign is accepted for an unsigned target. -/
def rust_parse_usize (s : String) : Option Nat :=
  match s.toList with
  | '+' :: rest =>
      (digitsCharsToNat? rest).bind fun n => if n < 2 ^ 64 then some n else none
  | cs =>
      (digitsCharsToNat? cs).bind fun n => if n < 2 ^ 64 then some n else none

/-- Rust `str::parse::<i64>`: optional `+`/`-` sign, at least one ASCII
digit, value within `-2^63 ..= 2^63 - 1`. -/
def rust_parse_i64 (s : String) : Option Int :=
  match s.toList with
  | '+' :: rest =>
      (digitsCharsToNat? rest).bind fun n =>
        if (n : Int) ≤ 2 ^ 63 - 1 then some (n : Int) else none
  | '-' :: rest =>
      (digitsCharsToNat? rest).bind fun n =>
        if (n : Int) ≤ 2 ^ 63 then some (-(n : Int)) else none
  | cs =>
      (digitsCharsToNat? cs).bind fun n =>
        if (n : Int) ≤ 2 ^ 63 - 1 then some (n : Int) else none

/-- Rust `e as usize` applied to an `i64`: the two's-complement cast,
i.e. reduction modulo `2^64` into `0 ..= 2^64 - 1`. -/
def i64_as_usize (n : Int) : Nat := (n % 2 ^ 64).toNat

/-- `impl TryFrom<&RedisValue> for Count` (`Count = usize`): a native
integer is cast with `as usize`; a simple string is parsed as `usize`;
everything else (bulk strings included) is `InvalidType`. -/
def count_try_from : RedisValue → Except OpsError RCount
  | .Int e => .ok (i64_as_usize e)
  | .SimpleString s =>
      match rust_parse_usize s with
      | some n => .ok n
      | none => .error .InvalidType
  | _ => .error .InvalidType

/-- `impl TryFrom<&RedisValue> for ICount` (`ICount = i64`): a native
integer passes through; a simple string is parsed as `i64`; everything
else is `InvalidType`. -/
def icount_try_from : RedisValue → Except OpsError ICount
  | .Int e => .ok e
  | .SimpleString s =>
      match rust_parse_i64 s with
      | some n => .ok n
      | none => .error .InvalidType
  | _ => .error .InvalidType

/-- Rust `str::to_lowercase` as used on command names: character-wise
ASCII lowercasing (agrees with Rust on ASCII input; every recognized
command name is ASCII). -/
def strToLower (s : String) : String := ⟨s.data.map Char.toLower⟩

/-- `translate_string`: the zero-argument commands recognized from a
bare string, after lowercasing. -/
def translate_string (start : String) : Except OpsError Ops :=
  match strToLower start with
  | "ping" => .ok .Pong
  | "keys" => .ok .Keys
  | _ => .error .UnknownOp

/-- `all_strings`: every element is a simple or bulk string. -/
def all_strings (v : List RedisValue) : Bool :=
  v.all fun x =>
    match x with
    | .SimpleString _ => true
    | .BulkString _ => true
    | _ => false

/-- `tails_as_strings`: all elements must be strings, which are then
extracted (the source's `unwrap` cannot fail under the guard; the
default `""` branch is unreachable). -/
def tails_as_strings (tail : List RedisValue) : Except OpsError (List String) :=
  if all_strings tail then
    .ok (tail.map fun x =>
      match x with
      | .SimpleString s => s
      | .BulkString s => s
      | _ => "")
  else .error .InvalidType

/-- `verify_size_lower`: minimum-arity check. -/
def verify_size_lower (v : List RedisValue) (min_size : Nat) :
    Except OpsError Unit :=
  if v.length < min_size then .error (.NotEnoughArgs min_size) else .ok ()

/-- `verify_size`: exact-arity check. -/
def verify_size (v : List RedisValue) (size : Nat) : Except OpsError Unit :=
  if v.length ≠ size then .error (.WrongNumberOfArgs size) else .ok ()

/-- `get_key_and_val`: requires at least three elements and coerces
`array[1]`, `array[2]` to strings. -/
def get_key_and_val (array : List RedisValue) :
    Except OpsError (RKey × String) :=
  match array with
  | _ :: a1 :: a2 :: _ => do
      let key ← string_try_from a1
      let val ← string_try_from a2
      .ok (key, val)
  | _ => .error (.WrongNumberOfArgs 3)

/-- `get_key_and_tail`: requires at least three elements, coerces
`array[1]` to the key and `array[2..]` to the string list. -/
def get_key_and_tail (array : List RedisValue) :
    Except OpsError (RKey × List String) :=
  match array with
  | _ :: a1 :: a2 :: rest => do
      let set_key ← string_try_from a1
      let vals ← tails_as_strings (a2 :: rest)
      .ok (set_key, vals)
  | _ => .error (.WrongNumberOfArgs 3)

/-- Indexing into a tail that an arity check has already bounded; the
default is never reached on guarded uses. -/
def nth (v : List RedisValue) (i : Nat) : RedisValue :=
  v.getD i .NullArray

/-- `translate_array`: translation of an array wire value — empty array
is the distinguished `Noop`; the head names the command
(case-insensitively); each arm validates arity and argument shapes
exactly as the source. -/
def translate_array (array : List RedisValue) : Except OpsError Ops :=
  match array with
  | [] => .error .Noop
  | a0 :: tail =>
    match string_try_from a0 with
    | .error e => .error e
    | .ok head =>
      match translate_string head with
      | .ok op => .ok op
      | .error _ =>
        match strToLower head with
        | "set" => do
            let kv ← get_key_and_val array
            .ok (.Set kv.1 kv.2)
        | "get" => do
            _ ← verify_size tail 1
            let key ← string_try_from (nth tail 0)
            .ok (.Get key)
        | "del" => do
            _ ← verify_size_lower tail 1
            let keys ← tails_as_strings tail
            .ok (.Del keys)
        | "rename" => do
            _ ← verify_size tail 2
            let key ← string_try_from (nth tail 0)
            let new_key ← string_try_from (nth tail 1)
            .ok (.Rename key new_key)
        | "exists" => do
            _ ← verify_size_lower tail 1
            let keys ← tails_as_strings tail
            .ok (.Exists keys)
        | "sadd" => do
            let kt ← get_key_and_tail array
            .ok (.SAdd kt.1 kt.2)
        | "srem" => do
            let kt ← get_key_and_tail array
            .ok (.SRem kt.1 kt.2)
        | "smembers" => do
            _ ← verify_size tail 1
            let set_key ← string_try_from (nth tail 0)
            .ok (.SMembers set_key)
        | "scard" => do
            _ ← verify_size tail 1
            let key ← string_try_from (nth tail 0)
            .ok (.SCard key)
        | "sdiff" => do
            _ ← verify_size_lower tail 2
            let keys ← tails_as_strings tail
            .ok (.SDiff keys)
        | "sunion" => do
            _ ← verify_size_lower tail 2
            let keys ← tails_as_strings tail
            .ok (.SUnion keys)
        | "sinter" => do
            _ ← verify_size_lower tail 2
            let keys ← tails_as_strings tail
            .ok (.SInter keys)
        | "sdiffstore" => do
            let kt ← get_key_and_tail array
            .ok (.SDiffStore kt.1 kt.2)
        | "sunionstore" => do
            let kt ← get_key_and_tail array
            .ok (.SUnionStore kt.1 kt.2)
        | "sinterstore" => do
            let kt ← get_key_and_tail array
            .ok (.SInterStore kt.1 kt.2)
        | "spop" => do
            _ ← verify_size_lower tail 1
            let key ← string_try_from (nth tail 0)
            match tail.get? 1 with
            | some c =>
                match count_try_from c with
                | .ok cc => .ok (.SPop key (some cc))
                | .error e => .error e
            | none => .ok (.SPop key none)
        | "sismember" => do
            let kv ← get_key_and_val array
            .ok (.SIsMember kv.1 kv.2)
        | "smove" => do
            _ ← verify_size tail 3
            let src ← string_try_from (nth tail 0)
            let dest ← string_try_from (nth tail 1)
            let member ← string_try_from (nth tail 2)
            .ok (.SMove src dest member)
        | "srandmember" => do
            _ ← verify_size_lower tail 1
            let key ← string_try_from (nth tail 0)
            match tail.get? 1 with
            | some c =>
                match icount_try_from c with
                | .ok cc => .ok (.SRandMembers key (some cc))
                | .error e => .error e
            | none => .ok (.SRandMembers key none)
        | "lpush" => do
            let kt ← get_key_and_tail array
            .ok (.LPush kt.1 kt.2)
        | "lpushx" => do
            _ ← verify_size tail 2
            let key ← string_try_from (nth tail 0)
            let val ← string_try_from (nth tail 1)
            .ok (.LPushX key val)
        | "llen" => do
            _ ← verify_size tail 1
            let key ← string_try_from (nth tail 0)
            .ok (.LLen key)
        | "lpop" => do
            _ ← verify_size tail 1
            let key ← string_try_from (nth tail 0)
            .ok (.LPop key)
        | "linsert" => do
            _ ← verify_size tail 1
            let key ← string_try_from (nth tail 0)
            .ok (.LPop key)
        | _ => .error .UnknownOp

/-- `translate`: entry point — bare strings go through
`translate_string`, arrays through `translate_array`, everything else is
`UnknownOp`. -/
def translate (rv : RedisValue) : Except OpsError Ops :=
  match rv with
  | .SimpleString s => translate_string s
  | .BulkString s => translate_string s
  | .Array vals => translate_array vals
  | _ => .error .UnknownOp

end Resp

open Hashes Resp

/-- Helper: the result entries of a multi-get can be written uniformly as a
map over the requested fields, through the hash defaulted to empty. -/
theorem replicate_nil_eq_map (fields : List Key) :
    List.replicate fields.length ReturnValue.Nil
      = fields.map (fun f =>
          match alookup ([] : Hash) f with
          | some v => ReturnValue.StringRes v
          | none => ReturnValue.Nil) := by
  induction fields with
  | nil => rfl
  | cons f fs ih =>
      simp only [List.replicate, List.map, alookup]
      rw [ih]
      simp [alookup]

/-- Claim C1: the claim states that `HIncrBy` on a stored value that is not a
valid base-10 integer — including values that are not valid UTF-8 — returns
the typed `Error b"Bad Type!"` result and leaves the field unchanged.  The
code instead calls `.unwrap()` on the `std::str::from_utf8` result, so a
non-UTF-8 stored value makes it panic (modelled as `none`): at key `[107]`,
field `[102]` holding the single byte `0xFF`, execution panics, while a
valid-UTF-8 non-numeric value such as `"a"` does take the documented
typed-error path with the container unchanged. -/
theorem hincrby_nonutf8_panics :
    hash_interact (.HIncrBy [107] [102] 1) [([107], [([102], [255])])] = none
    ∧ hash_interact (.HIncrBy [107] [102] 1) [([107], [([102], [97])])]
        = some (.Error badTypeMsg, [([107], [([102], [97])])]) :=
  ⟨rfl, rfl⟩

/-- Claim C2, counterexample: translating the wire array `["HSET","k"]` does
not fail with the wrong-number-of-arguments error — `hset` is not in the
translator's command catalog at all, so it fails with `UnknownOp`, a
distinct variant. -/
theorem hset_translation_unknown_op_cex :
    Resp.translate (.Array [.BulkString "HSET", .BulkString "k"])
      = .error .UnknownOp
    ∧ OpsError.UnknownOp ≠ OpsError.WrongNumberOfArgs 3 :=
  ⟨rfl, by decide⟩

/-- Claim C2, amended: translating `["HSET","k"]` (in either case) fails
with the "unknown operation" error, because no hash command is wired into
`translate_array`'s catalog; no arity check is ever reached for it. -/
theorem hset_translation_amended :
    Resp.translate (.Array [.BulkString "HSET", .BulkString "k"])
      = .error .UnknownOp
    ∧ Resp.translate (.Array [.BulkString "hset", .BulkString "k"])
      = .error .UnknownOp :=
  ⟨rfl, rfl⟩

/-- Claim C3, counterexample: `HDel` on a top-level key with no existing
hash does not create the minimal empty container — on the empty state it
returns count 0 and leaves the state empty, with no entry for the key. -/
theorem hdel_absent_key_no_create_cex :
    hash_interact (.HDel [107] [[102]]) [] = some (.IntRes 0, [])
    ∧ alookup ([] : HState) [107] = none :=
  ⟨rfl, rfl⟩

/-- Claim C3, amended: of the hash write operations applied to a key with
no existing hash, `HSet`, `HMSet`, `HSetNX` and `HIncrBy` create the hash
container for the key before applying their mutation, but `HDel` does not:
it returns count 0 and leaves the state unchanged. -/
theorem hash_write_lazy_create_amended (st : HState) (k f : Key) (v : Value)
    (kvs : List (Key × Value)) (n : Count) (fs : List Key)
    (habs : alookup st k = none) :
    (∃ st1, hash_interact (.HSet k f v) st = some (.Ok, st1)
       ∧ (alookup st1 k).isSome)
    ∧ (∃ st2, hash_interact (.HMSet k kvs) st = some (.Ok, st2)
       ∧ (alookup st2 k).isSome)
    ∧ (∃ st3 rv3, hash_interact (.HSetNX k f v) st = some (rv3, st3)
       ∧ (alookup st3 k).isSome)
    ∧ (∃ st4 rv4, hash_interact (.HIncrBy k f n) st = some (rv4, st4)
       ∧ (alookup st4 k).isSome)
    ∧ hash_interact (.HDel k fs) st = some (.IntRes 0, st) := by
  refine ⟨⟨_, rfl, by simp [alookup_ainsert]⟩,
    ⟨_, rfl, by simp [alookup_ainsert]⟩,
    ⟨ainsert st k (ainsert [] f v), .IntRes 1,
      by simp [hash_interact, habs, alookup], by simp [alookup_ainsert]⟩,
    ⟨ainsert st k (ainsert [] f (i64_to_bytes (wrap_i64 (0 + n)))), .Ok,
      by simp [hash_interact, habs, alookup], by simp [alookup_ainsert]⟩,
    by simp [hash_interact, habs]⟩

/-- Witness for the amended claim C3, at the empty state with key `[107]`,
field `[102]`, value `[49]`, pair list `[([102],[49])]`, increment 1 and
field list `[[102]]`. -/
theorem hash_write_lazy_create_amended_witness :
    alookup ([] : HState) [107] = none
    ∧ ((∃ st1, hash_interact (.HSet [107] [102] [49]) [] = some (.Ok, st1)
         ∧ (alookup st1 [107]).isSome)
      ∧ (∃ st2, hash_interact (.HMSet [107] [([102], [49])]) []
           = some (.Ok, st2) ∧ (alookup st2 [107]).isSome)
      ∧ (∃ st3 rv3, hash_interact (.HSetNX [107] [102] [49]) []
           = some (rv3, st3) ∧ (alookup st3 [107]).isSome)
      ∧ (∃ st4 rv4, hash_interact (.HIncrBy [107] [102] 1) []
           = some (rv4, st4) ∧ (alookup st4 [107]).isSome)
      ∧ hash_interact (.HDel [107] [[102]]) [] = some (.IntRes 0, [])) :=
  ⟨rfl, hash_write_lazy_create_amended [] [107] [102] [49] [([102], [49])]
    1 [[102]] rfl⟩

/-- Claim C4, counterexample: a count supplied as a bulk-string wire value
is rejected with `InvalidType`, even though its text parses as a base-10
integer — only native integers and simple strings are accepted.  So
translation of `["spop","k",BulkString "3"]` fails although the claim says
it must succeed. -/
theorem count_bulkstring_rejected_cex :
    Resp.translate (.Array [.BulkString "spop", .BulkString "k",
        .BulkString "3"]) = .error .InvalidType
    ∧ rust_parse_usize "3" = some 3 :=
  ⟨rfl, rfl⟩

/-- Claim C4, amended: for the commands taking a count (`spop`,
`srandmember`), translation accepts a native integer wire value or a
simple-string wire value that parses as a base-10 integer; a bulk string
and every other wire-value shape fail with the "invalid argument type"
error.  The first two conjuncts tie the `spop`/`srandmember` arms to the
conversions; the rest enumerate the conversions' behavior on every
wire-value shape. -/
theorem count_argument_coercion_amended (k : String) (rv : RedisValue)
    (n : Int) (s : String) (vs : List RedisValue) :
    (translate_array [.BulkString "spop", .BulkString k, rv]
      = match count_try_from rv with
        | .ok cc => .ok (.SPop k (some cc))
        | .error e => .error e)
    ∧ (translate_array [.BulkString "srandmember", .BulkString k, rv]
      = match icount_try_from rv with
        | .ok cc => .ok (.SRandMembers k (some cc))
        | .error e => .error e)
    ∧ count_try_from (.Int n) = .ok (i64_as_usize n)
    ∧ count_try_from (.SimpleString s)
      = (match rust_parse_usize s with
         | some c => .ok c
         | none => .error .InvalidType)
    ∧ count_try_from (.BulkString s) = .error .InvalidType
    ∧ count_try_from (.Error s) = .error .InvalidType
    ∧ count_try_from (.Array vs) = .error .InvalidType
    ∧ count_try_from .NullArray = .error .InvalidType
    ∧ count_try_from .NullBulkString = .error .InvalidType
    ∧ icount_try_from (.Int n) = .ok n
    ∧ icount_try_from (.SimpleString s)
      = (match rust_parse_i64 s with
         | some c => .ok c
         | none => .error .InvalidType)
    ∧ icount_try_from (.BulkString s) = .error .InvalidType :=
  ⟨rfl, rfl, rfl, rfl, rfl, rfl, rfl, rfl, rfl, rfl, rfl, rfl⟩

/-- Claim C5: for every key `k`, translating `["linsert", k]` yields
exactly the same typed command as translating `["lpop", k]`, namely the
pop-front list operation `LPop k` (the source's copy-paste defect,
preserved). -/
theorem linsert_equals_lpop (k : String) :
    translate_array [.BulkString "linsert", .BulkString k]
      = translate_array [.BulkString "lpop", .BulkString k]
    ∧ translate_array [.BulkString "linsert", .BulkString k]
      = .ok (.LPop k) :=
  ⟨rfl, rfl⟩

/-- Claim C6: translating an empty wire array fails with the distinguished
no-op error `OpsError.Noop`, a variant distinct from "unknown operation",
so callers can silently ignore it. -/
theorem empty_array_noop :
    Resp.translate (.Array []) = .error .Noop
    ∧ translate_array [] = .error .Noop
    ∧ OpsError.Noop ≠ OpsError.UnknownOp :=
  ⟨rfl, rfl, by decide⟩

/-- Claim C7: `HMGet` returns an array with exactly one entry per
requested field, in the requested order, each entry being the field's
value if present and `Nil` otherwise; an absent top-level key behaves as
the empty hash, giving all `Nil`s of the request's length.  The state is
untouched. -/
theorem hmget_order_and_nils (st : HState) (k : Key) (fields : List Key) :
    hash_interact (.HMGet k fields) st
      = some (.Array (fields.map fun f =>
          match alookup ((alookup st k).getD []) f with
          | some v => ReturnValue.StringRes v
          | none => ReturnValue.Nil), st)
    ∧ (fields.map fun f =>
          match alookup ((alookup st k).getD []) f with
          | some v => ReturnValue.StringRes v
          | none => ReturnValue.Nil).length = fields.length := by
  constructor
  · cases h : alookup st k with
    | none =>
        simp only [hash_interact, h, Option.getD]
        rw [replicate_nil_eq_map fields]
    | some hsh => simp [hash_interact, h]
  · simp

/-- Claim C8: `HSetNX` with a currently-absent field stores the value and
returns the integer 1; afterwards the field holds that value, and any
later `HSetNX` on a state where the field is present returns 0 and leaves
the stored value untouched — so only the first call's value survives. -/
theorem hsetnx_first_wins (st : HState) (k f : Key) (v : Value)
    (habs : alookup ((alookup st k).getD []) f = none) :
    ∃ st1, hash_interact (.HSetNX k f v) st = some (.IntRes 1, st1)
      ∧ alookup ((alookup st1 k).getD []) f = some v
      ∧ ∀ (st2 : HState) (w v2 : Value),
          alookup ((alookup st2 k).getD []) f = some w →
          ∃ st3, hash_interact (.HSetNX k f v2) st2 = some (.IntRes 0, st3)
            ∧ alookup ((alookup st3 k).getD []) f = some w := by
  refine ⟨ainsert st k (ainsert ((alookup st k).getD []) f v),
    by simp [hash_interact, habs], by simp [alookup_ainsert], ?_⟩
  intro st2 w v2 hw
  exact ⟨ainsert st2 k ((alookup st2 k).getD []),
    by simp [hash_interact, hw], by simp [alookup_ainsert, hw]⟩

/-- Witness for claim C8, at the empty state with key `[107]`, field
`[102]` and value `[49]`. -/
theorem hsetnx_first_wins_witness :
    alookup ((alookup ([] : HState) [107]).getD []) [102] = none
    ∧ ∃ st1, hash_interact (.HSetNX [107] [102] [49]) []
        = some (.IntRes 1, st1)
      ∧ alookup ((alookup st1 [107]).getD []) [102] = some [49]
      ∧ ∀ (st2 : HState) (w v2 : Value),
          alookup ((alookup st2 [107]).getD []) [102] = some w →
          ∃ st3, hash_interact (.HSetNX [107] [102] v2) st2
              = some (.IntRes 0, st3)
            ∧ alookup ((alookup st3 [107]).getD []) [102] = some w :=
  ⟨rfl, hsetnx_first_wins [] [107] [102] [49] rfl⟩

/-- Claim C9: for every prior state, executing `HSet (k, f, v)` and then
`HGet (k, f)` on the resulting state returns `v` as a string result. -/
theorem hset_then_hget (st : HState) (k f : Key) (v : Value) :
    ∃ st', hash_interact (.HSet k f v) st = some (.Ok, st')
      ∧ hash_interact (.HGet k f) st' = some (.StringRes v, st') := by
  refine ⟨_, rfl, ?_⟩
  simp [hash_interact, alookup_ainsert]

/-- Claim C10: an `spop` count arriving as a native negative integer wire
value is not rejected: translation succeeds and the resulting unsigned
count is the integer reduced modulo `2^64` (the two's-complement `as
usize` cast); `srandmember` likewise accepts it, keeping the signed
value. -/
theorem spop_negative_count_cast (n : Int) (k : String)
    (h1 : -(2 ^ 63) ≤ n) (h2 : n < 0) :
    translate_array [.BulkString "spop", .BulkString k, .Int n]
        = .ok (.SPop k (some (i64_as_usize n)))
    ∧ ((i64_as_usize n : Int) = n % 2 ^ 64)
    ∧ translate_array [.BulkString "srandmember", .BulkString k, .Int n]
        = .ok (.SRandMembers k (some n)) := by
  refine ⟨rfl, ?_, rfl⟩
  exact Int.toNat_of_nonneg (Int.emod_nonneg n (by norm_num))

/-- Witness for claim C10, at count `-1` and key `"k"`: the cast count is
`2^64 - 1`. -/
theorem spop_negative_count_cast_witness :
    (-(2 ^ 63) : Int) ≤ -1 ∧ (-1 : Int) < 0
    ∧ (translate_array [.BulkString "spop", .BulkString "k", .Int (-1)]
          = .ok (.SPop "k" (some (i64_as_usize (-1))))
      ∧ ((i64_as_usize (-1) : Int) = (-1) % 2 ^ 64)
      ∧ translate_array [.BulkString "srandmember", .BulkString "k",
            .Int (-1)] = .ok (.SRandMembers "k" (some (-1)))) :=
  ⟨by norm_num, by norm_num,
    spop_negative_count_cast (-1) "k" (by norm_num) (by norm_num)⟩
